import Mathlib

/-!
Shallow embedding of the audio remix pipeline in `src/bgm_core/remix.py`.

Waveforms are modelled as `List ℚ` (single-channel float samples, taken
exact-rational here), sample rates as `ℕ`.  NumPy reductions that raise on
empty arrays (`np.max`) are modelled as `Option`-valued, and every function
that can hit such a reduction is `Option`-valued, `none` standing for the
Python exception.  Transcendental and random ingredients of the source
(`scipy.signal.butter` coefficient design, `np.random.randn`, `np.exp`,
`10 ** (db/20)`, `librosa.effects.time_stretch` / `pitch_shift`) are
abstracted as fields of a `DSPEnv` parameter: the claims under study do not
depend on their numeric values, only on the surrounding dataflow, which is
embedded faithfully.
-/

/-- Python's `int(q)` on a float: truncation toward zero. -/
def pyInt (q : ℚ) : ℤ := if q < 0 then -⌊-q⌋ else ⌊q⌋

/-- `np.linspace(a, b, k)`: `k` evenly spaced points from `a` to `b`
inclusive (`[a]` for `k = 1`, `[]` for `k = 0`). -/
def linspace (a b : ℚ) (k : ℕ) : List ℚ :=
  if k = 0 then []
  else if k = 1 then [a]
  else (List.range k).map (fun i : ℕ => a + (b - a) * (i : ℚ) / ((k : ℚ) - 1))

/-- `np.max(np.abs(x))`: maximum absolute value of a waveform.  `none` on an
empty array, where NumPy raises `ValueError` (zero-size reduction). -/
def npAbsMax : List ℚ → Option ℚ
  | [] => none
  | v :: vs => some (vs.foldl (fun m w => max m |w|) |v|)

/-- The repeated peak-normalization pattern of the source:
`x / (np.max(np.abs(x)) + 1e-6) * c`. -/
def normalizeTo (c : ℚ) (y : List ℚ) : Option (List ℚ) :=
  match npAbsMax y with
  | none => none
  | some m => some (y.map (fun v => v / (m + 1e-6) * c))

/-- Dot product of two (possibly different-length) coefficient/history
lists; out-of-range entries count as zero. -/
def dotQ (c h : List ℚ) : ℚ := (List.zipWith (· * ·) c h).sum

/-- Worker for `lfilter`: processes the input one sample at a time keeping
the reversed input history `xh` and output history `yh`. -/
def lfilterGo (b aTail : List ℚ) (a0 : ℚ) : List ℚ → List ℚ → List ℚ → List ℚ
  | [], _, _ => []
  | x :: rest, xh, yh =>
    let xh' := x :: xh
    let yn := (dotQ b xh' - dotQ aTail yh) / a0
    yn :: lfilterGo b aTail a0 rest xh' (yn :: yh)

/-- `scipy.signal.lfilter(b, a, x)`: direct-form IIR filtering with zero
initial conditions, `y[n] = (Σ b[k]·x[n-k] - Σ_(k ≥ 1) a[k]·y[n-k]) / a[0]`. -/
def lfilter (b a : List ℚ) (x : List ℚ) : List ℚ :=
  lfilterGo b a.tail (a.headD 1) x [] []

/-- One entry of a full linear convolution:
`Σ_(k ≤ n) x[k] · h[n-k]` with out-of-range samples as zero. -/
def convEntry (x h : List ℚ) (n : ℕ) : ℚ :=
  (List.range (n + 1)).foldl (fun s k => s + x.getD k 0 * h.getD (n - k) 0) 0

/-- `scipy.signal.fftconvolve(x, h, mode="full")`: full linear convolution,
length `len(x) + len(h) - 1`; scipy returns an empty array if either input
is empty. -/
def fullConv (x h : List ℚ) : List ℚ :=
  if x = [] ∨ h = [] then []
  else (List.range (x.length + h.length - 1)).map (convEntry x h)

/-- Abstracted numeric environment: the transcendental / random ingredients
of the source whose exact values the verified properties do not depend on.
`butter order wn` models `scipy.signal.butter(order, wn)` returning the
`(b, a)` coefficient pair; `randn n` models `np.random.randn(n)`;
`expQ` models `np.exp`; `dbToGain g` models `10 ** (g / 20)`;
`timeStretch` and `pitchShift` model `librosa.effects.time_stretch` and
`librosa.effects.pitch_shift`. -/
structure DSPEnv where
  butter : ℕ → ℚ → List ℚ × List ℚ
  randn : ℕ → List ℚ
  expQ : ℚ → ℚ
  dbToGain : ℚ → ℚ
  timeStretch : ℚ → List ℚ → List ℚ
  pitchShift : ℕ → ℤ → List ℚ → List ℚ

/-- `_smooth_tail(tail, sr, cutoff)`: order-2 low-pass Butterworth at
`cutoff / (0.5 * sr)` applied with `lfilter`. -/
def smooth_tail (env : DSPEnv) (tail : List ℚ) (sr : ℕ) (cutoff : ℚ) : List ℚ :=
  let nyq : ℚ := 0.5 * (sr : ℚ)
  let normCut := cutoff / nyq
  let ba := env.butter 2 normCut
  lfilter ba.1 ba.2 tail

/-- `_reverb(y, sr, amount)`: noise tail shaped by an exponential decay,
smoothed, convolved with the input (truncated to the input length),
normalized, mixed wet/dry, then peak-normalized to 0.98. -/
def reverb (env : DSPEnv) (y : List ℚ) (sr : ℕ) (amount : ℚ) : Option (List ℚ) :=
  if amount ≤ 0 then some y
  else
    let tailSeconds : ℚ := 1.5 + 1.5 * amount
    let tailLen : ℕ := (pyInt (tailSeconds * (sr : ℚ))).toNat
    if tailLen = 0 then some y
    else
      let decayCurve := (linspace 0 1 tailLen).map (fun t => env.expQ (-3.5 * t))
      let tail0 := List.zipWith (· * ·) (env.randn tailLen) decayCurve
      let tail := smooth_tail env tail0 sr 6000
      let wet0 := (fullConv y tail).take y.length
      match npAbsMax wet0 with
      | none => none
      | some m =>
        let wet := wet0.map (fun v => v / (m + 1e-6))
        let wetMix : ℚ := 0.2 + 0.6 * amount
        let dryMix : ℚ := 1 - wetMix
        let out := List.zipWith (fun d w => dryMix * d + wetMix * w) y wet
        normalizeTo 0.98 out

/-- `_bass_boost(y, sr, amount)`: 0.9 headroom, order-4 low-pass at 120 Hz,
shelf-style boost `data + (g - 1) * low` with `g = 10^(15·amount/20)`, then
peak-normalize to 0.98. -/
def bass_boost (env : DSPEnv) (y : List ℚ) (sr : ℕ) (amount : ℚ) : Option (List ℚ) :=
  if amount ≤ 0 then some y
  else
    let yWork := y.map (fun v => v * 0.9)
    let nyq : ℚ := 0.5 * (sr : ℚ)
    let ba := env.butter 4 (120 / nyq)
    let low := lfilter ba.1 ba.2 yWork
    let gainDb : ℚ := 0 + 15 * amount
    let g := env.dbToGain gainDb
    let yBoost := List.zipWith (fun d lo => d + (g - 1) * lo) yWork low
    normalizeTo 0.98 yBoost

/-- `_high_boost(y, sr, amount)`: order-4 high-pass at 2000 Hz,
`y + amount * high`, peak-normalize to 0.95. -/
def high_boost (env : DSPEnv) (y : List ℚ) (sr : ℕ) (amount : ℚ) : Option (List ℚ) :=
  if amount ≤ 0 then some y
  else
    let nyq : ℚ := 0.5 * (sr : ℚ)
    let ba := env.butter 4 (2000 / nyq)
    let highPart := lfilter ba.1 ba.2 y
    let boosted := List.zipWith (fun v hv => v + amount * hv) y highPart
    normalizeTo 0.95 boosted

/-- `_lofi_filter(y, sr, amount)`: order-4 low-pass at 2500 Hz, linear
cross-fade `(1 - amount) * y + amount * filt`, peak-normalize to 0.95. -/
def lofi_filter (env : DSPEnv) (y : List ℚ) (sr : ℕ) (amount : ℚ) : Option (List ℚ) :=
  if amount ≤ 0 then some y
  else
    let nyq : ℚ := 0.5 * (sr : ℚ)
    let ba := env.butter 4 (2500 / nyq)
    let filt := lfilter ba.1 ba.2 y
    let out := List.zipWith (fun v f => (1 - amount) * v + amount * f) y filt
    normalizeTo 0.95 out

/-- `_reverse_audio(y) = y[::-1]`. -/
def reverse_audio (y : List ℚ) : List ℚ := y.reverse

/-- `_process_section(y, sr, bass, high, reverb, lofi)`: the fixed chain
reverb → bass boost → high boost → lo-fi blend. -/
def process_section (env : DSPEnv) (y : List ℚ) (sr : ℕ)
    (bassAmount highAmount reverbAmount lofiAmount : ℚ) : Option (List ℚ) :=
  match reverb env y sr reverbAmount with
  | none => none
  | some y1 =>
    match bass_boost env y1 sr bassAmount with
    | none => none
    | some y2 =>
      match high_boost env y2 sr highAmount with
      | none => none
      | some y3 => lofi_filter env y3 sr lofiAmount

/-- The per-section guard of `remix_audio`
(`if len(yi) > 0: yi = _process_section(...)`). -/
def guardedProcess (env : DSPEnv) (y : List ℚ) (sr : ℕ)
    (bassAmount highAmount reverbAmount lofiAmount : ℚ) : Option (List ℚ) :=
  if 0 < y.length then process_section env y sr bassAmount highAmount reverbAmount lofiAmount
  else some y

/-- `_fade_in_out(y, sr, fade_seconds)`: linear fade-in / fade-out envelope,
skipped when `fade_len <= 0 or fade_len * 2 > n`. -/
def fade_in_out (y : List ℚ) (sr : ℕ) (fadeSeconds : ℚ) : List ℚ :=
  let n := y.length
  let fadeLen : ℕ := (pyInt (fadeSeconds * (sr : ℚ))).toNat
  if fadeLen = 0 ∨ fadeLen * 2 > n then y
  else
    let fadeIn := linspace 0 1 fadeLen
    let fadeOut := linspace 1 0 fadeLen
    let envl := fadeIn ++ List.replicate (n - 2 * fadeLen) 1 ++ fadeOut
    List.zipWith (· * ·) y envl

/-- `np.clip(speed, 0.6, 1.3)` from `remix_audio`. -/
def clampSpeed (s : ℚ) : ℚ := min 1.3 (max 0.6 s)

/-- `int(np.clip(pitch_steps, -7, 7))` from `remix_audio`. -/
def clampPitch (p : ℚ) : ℤ := pyInt (min 7 (max (-7) p))

/-- The global speed / pitch stage of `remix_audio`: time-stretch only when
the clamped speed differs from 1, then pitch-shift only when the clamped
integer step is nonzero. -/
def applySpeedPitch (env : DSPEnv) (sr : ℕ) (speed pitchSteps : ℚ) (y : List ℚ) : List ℚ :=
  let sp := clampSpeed speed
  let ps := clampPitch pitchSteps
  let y1 := if sp ≠ 1 then env.timeStretch sp y else y
  if ps ≠ 0 then env.pitchShift sr ps y1 else y1

/-- The `start_time` clamp of the preview crop:
`max(0.0, min(start_time, max(0.0, total_dur_orig - duration)))`. -/
def clampStart (startTime d totalDurOrig : ℚ) : ℚ :=
  max 0 (min startTime (max 0 (totalDurOrig - d)))

/-- The preview crop of `remix_audio`: slice `y[i_start:i_end]` with
`i_start = int(start' * sr)`, `i_end = int((start' + duration) * sr)`. -/
def previewCrop (y : List ℚ) (sr : ℕ) (startTime d : ℚ) : List ℚ :=
  let n := y.length
  let totalDurOrig : ℚ := (n : ℚ) / (sr : ℚ)
  let st := clampStart startTime d totalDurOrig
  let iStart := (pyInt (st * (sr : ℚ))).toNat
  let iEnd := (pyInt ((st + d) * (sr : ℚ))).toNat
  (y.drop iStart).take (iEnd - iStart)

/-- The section-boundary computation of `remix_audio`: clamp `t1` into
`[0, total_dur]`, `t2` into `[t1, total_dur]`, convert to sample indices
`int(t * sr)` and slice the waveform `y[:i1]`, `y[i1:i2]`, `y[i2:]`.
Returns `((t1_clamped, t2_clamped), (y1, y2, y3))`. -/
def sectionSplit (y : List ℚ) (sr : ℕ) (t1 t2 : ℚ) :
    (ℚ × ℚ) × (List ℚ × List ℚ × List ℚ) :=
  let totalDur : ℚ := (y.length : ℚ) / (sr : ℚ)
  let t1c := max 0 (min t1 totalDur)
  let t2c := max t1c (min t2 totalDur)
  let i1 := (pyInt (t1c * (sr : ℚ))).toNat
  let i2 := (pyInt (t2c * (sr : ℚ))).toNat
  ((t1c, t2c), (y.take i1, (y.drop i1).take (i2 - i1), y.drop i2))

/-- The flat parameter bundle of `remix_audio` (everything after the file
argument). -/
structure RemixParams where
  speed : ℚ
  pitchSteps : ℚ
  fadeFlag : Bool
  reverseFlag : Bool
  t1 : ℚ
  t2 : ℚ
  bass1 : ℚ
  high1 : ℚ
  reverb1 : ℚ
  lofi1 : ℚ
  bass2 : ℚ
  high2 : ℚ
  reverb2 : ℚ
  lofi2 : ℚ
  bass3 : ℚ
  high3 : ℚ
  reverb3 : ℚ
  lofi3 : ℚ
  startTime : ℚ
  duration : Option ℚ

/-- The global pre-processing of `remix_audio`: optional crop (only when a
positive duration is supplied), then clamped speed / pitch, then optional
reverse — in the source's order, all before sectioning. -/
def preprocess (env : DSPEnv) (y : List ℚ) (sr : ℕ) (p : RemixParams) : List ℚ :=
  let yCrop :=
    match p.duration with
    | some d => if 0 < d then previewCrop y sr p.startTime d else y
    | none => y
  let ySp := applySpeedPitch env sr p.speed p.pitchSteps yCrop
  if p.reverseFlag then reverse_audio ySp else ySp

/-- The rest of `remix_audio` after global pre-processing: early return on
an empty waveform, section split, guarded per-section processing,
concatenation (just `y1` when both `y2` and `y3` are empty), optional fade,
final peak-normalization to 0.98. -/
def postSections (env : DSPEnv) (y : List ℚ) (sr : ℕ) (p : RemixParams) : Option (List ℚ) :=
  if y.length = 0 then some y
  else
    let s := sectionSplit y sr p.t1 p.t2
    match guardedProcess env s.2.1 sr p.bass1 p.high1 p.reverb1 p.lofi1 with
    | none => none
    | some z1 =>
      match guardedProcess env s.2.2.1 sr p.bass2 p.high2 p.reverb2 p.lofi2 with
      | none => none
      | some z2 =>
        match guardedProcess env s.2.2.2 sr p.bass3 p.high3 p.reverb3 p.lofi3 with
        | none => none
        | some z3 =>
          let yOut := if 0 < z2.length ∨ 0 < z3.length then z1 ++ z2 ++ z3 else z1
          let yFad := if p.fadeFlag then fade_in_out yOut sr 1 else yOut
          normalizeTo 0.98 yFad

/-- `remix_audio` after `librosa.load` (audio decoding is I/O and outside
the embedding): pre-processing followed by sectioning and reassembly. -/
def remix_audio_core (env : DSPEnv) (y : List ℚ) (sr : ℕ) (p : RemixParams) : Option (List ℚ) :=
  postSections env (preprocess env y sr p) sr p

/-- The parameter bundle returned by `get_preset_params`. -/
structure PresetParams where
  speed : ℚ
  pitch : ℤ
  bass1 : ℚ
  high1 : ℚ
  reverb1 : ℚ
  lofi1 : ℚ
  bass2 : ℚ
  high2 : ℚ
  reverb2 : ℚ
  lofi2 : ℚ
  bass3 : ℚ
  high3 : ℚ
  reverb3 : ℚ
  lofi3 : ℚ
deriving DecidableEq

/-- The default `params` dict that `get_preset_params` starts from. -/
def basePresetParams : PresetParams where
  speed := 1
  pitch := 0
  bass1 := 0.2
  high1 := 0.2
  reverb1 := 0.2
  lofi1 := 0
  bass2 := 0.7
  high2 := 0.4
  reverb2 := 0.3
  lofi2 := 0.1
  bass3 := 0.35
  high3 := 0.2
  reverb3 := 0.4
  lofi3 := 0.4

/-- Preset name constants of `get_preset_params`. -/
def slowedReverbName : String := "Slowed Reverb"

/-- Preset name constant. -/
def lofiSlowName : String := "Lo-Fi Slow"

/-- Preset name constant. -/
def nightcoreName : String := "Nightcore"

/-- Preset name constant. -/
def podcastCleanName : String := "Podcast Clean"

/-- `get_preset_params(preset_name)`: start from the default bundle and
override fields according to the recognized preset name; unknown names
return the default bundle unchanged. -/
def get_preset_params (presetName : String) : PresetParams :=
  if presetName = slowedReverbName then
    { basePresetParams with
        speed := 0.82, pitch := -3,
        bass1 := 0.25, high1 := 0.15, reverb1 := 0.6, lofi1 := 0.3,
        bass2 := 0.7, high2 := 0.25, reverb2 := 0.8, lofi2 := 0.4,
        bass3 := 0.3, high3 := 0.15, reverb3 := 0.9, lofi3 := 0.5 }
  else if presetName = lofiSlowName then
    { basePresetParams with speed := 0.8, pitch := -2 }
  else if presetName = nightcoreName then
    { basePresetParams with speed := 1.3, pitch := 3 }
  else if presetName = podcastCleanName then
    { basePresetParams with speed := 1, pitch := 0 }
  else basePresetParams

/-- A concrete environment used to evaluate the embedding on concrete
inputs: identity-like filters, zero noise, constant curves. -/
def envC : DSPEnv where
  butter := fun _ _ => ([1], [1])
  randn := fun n => List.replicate n 0
  expQ := fun _ => 1
  dbToGain := fun _ => 1
  timeStretch := fun _ y => y
  pitchShift := fun _ _ y => y

/-- All-neutral remix parameters for concrete evaluation. -/
def p0 : RemixParams where
  speed := 1
  pitchSteps := 0
  fadeFlag := false
  reverseFlag := false
  t1 := 0
  t2 := 0
  bass1 := 0
  high1 := 0
  reverb1 := 0
  lofi1 := 0
  bass2 := 0
  high2 := 0
  reverb2 := 0
  lofi2 := 0
  bass3 := 0
  high3 := 0
  reverb3 := 0
  lofi3 := 0
  startTime := 0
  duration := none

/-- Name used to exercise the unknown-preset branch on a concrete input. -/
def unknownName : String := "unknown"

lemma le_foldlAbsMax (vs : List ℚ) (m : ℚ) :
    m ≤ vs.foldl (fun a w => max a |w|) m := by
  induction vs generalizing m with
  | nil => exact le_refl m
  | cons a t ih =>
    simp only [List.foldl_cons]
    exact le_trans (le_max_left m |a|) (ih (max m |a|))

lemma mem_le_foldlAbsMax (vs : List ℚ) (v : ℚ) :
    v ∈ vs → ∀ m : ℚ, |v| ≤ vs.foldl (fun a w => max a |w|) m := by
  induction vs with
  | nil => intro hv; cases hv
  | cons a t ih =>
    intro hv m
    simp only [List.foldl_cons]
    rcases List.mem_cons.1 hv with h | h
    · subst h
      exact le_trans (le_max_right m |v|) (le_foldlAbsMax t _)
    · exact ih h (max m |a|)

lemma npAbsMax_spec (y : List ℚ) (m : ℚ) (h : npAbsMax y = some m) :
    0 ≤ m ∧ ∀ v ∈ y, |v| ≤ m := by
  cases y with
  | nil => simp [npAbsMax] at h
  | cons a t =>
    simp only [npAbsMax, Option.some.injEq] at h
    subst h
    refine ⟨le_trans (abs_nonneg a) (le_foldlAbsMax t _), ?_⟩
    intro v hv
    rcases List.mem_cons.1 hv with h | h
    · subst h; exact le_foldlAbsMax t _
    · exact mem_le_foldlAbsMax t v h _

lemma npAbsMax_ne_nil {y : List ℚ} {m : ℚ} (h : npAbsMax y = some m) : y ≠ [] := by
  intro hnil
  subst hnil
  simp [npAbsMax] at h

lemma normalizeTo_spec (c : ℚ) (y out : List ℚ) (hs : normalizeTo c y = some out) :
    ∃ m, npAbsMax y = some m ∧ out = y.map (fun v => v / (m + 1e-6) * c) := by
  unfold normalizeTo at hs
  split at hs
  · cases hs
  · rename_i m h
    exact ⟨m, h, (Option.some.inj hs).symm⟩

lemma normalizeTo_length (c : ℚ) (y out : List ℚ) (hs : normalizeTo c y = some out) :
    out.length = y.length := by
  obtain ⟨m, _, rfl⟩ := normalizeTo_spec c y out hs
  simp

lemma normalizeTo_bound (c : ℚ) (y out : List ℚ) (hc : 0 ≤ c)
    (hs : normalizeTo c y = some out) : ∀ v ∈ out, |v| ≤ c := by
  obtain ⟨m, hm, rfl⟩ := normalizeTo_spec c y out hs
  intro v hv
  obtain ⟨w, hw, rfl⟩ := List.mem_map.1 hv
  obtain ⟨hm0, hmem⟩ := npAbsMax_spec y m hm
  have heps : (0:ℚ) < 1e-6 := by norm_num
  have hpos : (0:ℚ) < m + 1e-6 := by linarith
  have h1 : |w| / (m + 1e-6) ≤ 1 := by
    rw [div_le_one hpos]
    have := hmem w hw
    linarith
  have habs : |w / (m + 1e-6) * c| = |w| / (m + 1e-6) * c := by
    rw [abs_mul, abs_div, abs_of_pos hpos, abs_of_nonneg hc]
  rw [habs]
  calc |w| / (m + 1e-6) * c ≤ 1 * c := mul_le_mul_of_nonneg_right h1 hc
    _ = c := one_mul c

lemma lfilterGo_length (b aT : List ℚ) (a0 : ℚ) (xs : List ℚ) :
    ∀ xh yh, (lfilterGo b aT a0 xs xh yh).length = xs.length := by
  induction xs with
  | nil => intro xh yh; rfl
  | cons x rest ih =>
    intro xh yh
    simp only [lfilterGo, List.length_cons]
    rw [ih]

lemma lfilter_length (b a x : List ℚ) : (lfilter b a x).length = x.length := by
  unfold lfilter
  exact lfilterGo_length b a.tail (a.headD 1) x [] []

lemma linspace_length (a b : ℚ) (k : ℕ) : (linspace a b k).length = k := by
  unfold linspace
  split_ifs with h1 h2
  · simp [h1]
  · simp [h2]
  · rw [List.length_map, List.length_range]

lemma fullConv_length (x h : List ℚ) (hx : x ≠ []) (hh : h ≠ []) :
    (fullConv x h).length = x.length + h.length - 1 := by
  unfold fullConv
  rw [if_neg (by simp [hx, hh])]
  simp

lemma take_drop_partition (y : List ℚ) (i1 i2 : ℕ) (h : i1 ≤ i2) :
    (y.take i1).length + ((y.drop i1).take (i2 - i1)).length + (y.drop i2).length
      = y.length := by
  simp only [List.length_take, List.length_drop]
  omega

lemma pyInt_of_nonneg {q : ℚ} (h : 0 ≤ q) : pyInt q = ⌊q⌋ := if_neg (not_lt.2 h)

lemma pyInt_natCast (k : ℕ) : pyInt (k : ℚ) = k := by
  rw [pyInt_of_nonneg (by positivity)]
  exact_mod_cast Int.floor_natCast k

lemma pyInt_mono_nonneg {p q : ℚ} (hp : 0 ≤ p) (hpq : p ≤ q) : pyInt p ≤ pyInt q := by
  rw [pyInt_of_nonneg hp, pyInt_of_nonneg (le_trans hp hpq)]
  exact Int.floor_mono hpq

lemma pyInt_ge_one {q : ℚ} (h : 1 ≤ q) : 1 ≤ pyInt q := by
  rw [pyInt_of_nonneg (le_trans zero_le_one h)]
  exact_mod_cast Int.le_floor.2 (by exact_mod_cast h)

lemma tailLen_pos {sr : ℕ} {a : ℚ} (hsr : 1 ≤ sr) (ha : 0 < a) :
    1 ≤ (pyInt ((1.5 + 1.5 * a) * (sr : ℚ))).toNat := by
  have hsr' : (1:ℚ) ≤ (sr : ℚ) := by exact_mod_cast hsr
  have h15 : (0:ℚ) ≤ 1.5 * a := mul_nonneg (by norm_num) (le_of_lt ha)
  have hq : (1:ℚ) ≤ (1.5 + 1.5 * a) * (sr : ℚ) := by
    calc (1:ℚ) = 1 * 1 := by ring
      _ ≤ (1.5 + 1.5 * a) * (sr : ℚ) :=
        mul_le_mul (by linarith) hsr' (by norm_num) (by linarith)
  have := pyInt_ge_one hq
  omega

lemma sectionSplit_lengths (y : List ℚ) (sr : ℕ) (t1 t2 : ℚ) :
    (sectionSplit y sr t1 t2).2.1.length + (sectionSplit y sr t1 t2).2.2.1.length +
      (sectionSplit y sr t1 t2).2.2.2.length = y.length := by
  simp only [sectionSplit]
  apply take_drop_partition
  apply Int.toNat_le_toNat
  apply pyInt_mono_nonneg
  · exact mul_nonneg (le_max_left _ _) (by positivity)
  · exact mul_le_mul_of_nonneg_right (le_max_left _ _) (by positivity)

lemma zip_norm_length (f : ℚ → ℚ → ℚ) (g : ℚ → ℚ) (c : ℚ) (y w out : List ℚ)
    (hw : w.length = y.length)
    (h : normalizeTo c (List.zipWith f y (w.map g)) = some out) :
    out.length = y.length := by
  rw [normalizeTo_length _ _ _ h, List.length_zipWith, List.length_map, hw, min_self]

lemma reverb_some_branch_length (y T out : List ℚ) (m wm : ℚ)
    (hm : npAbsMax ((fullConv y T).take y.length) = some m)
    (h : normalizeTo 0.98 (List.zipWith (fun d w => (1 - wm) * d + wm * w) y
          (((fullConv y T).take y.length).map (fun v => v / (m + 1e-6)))) = some out) :
    out.length = y.length := by
  have hne := npAbsMax_ne_nil hm
  have hy : y ≠ [] := by
    rintro rfl
    exact hne (by simp [fullConv])
  have hT : T ≠ [] := by
    rintro rfl
    exact hne (by simp [fullConv])
  have hw : ((fullConv y T).take y.length).length = y.length := by
    rw [List.length_take, fullConv_length y T hy hT]
    have h1 : 1 ≤ T.length := List.length_pos.2 hT
    exact min_eq_left (by omega)
  exact zip_norm_length _ _ _ y _ out hw h

lemma reverb_length (env : DSPEnv) (y : List ℚ) (sr : ℕ) (a : ℚ) (out : List ℚ)
    (h : reverb env y sr a = some out) : out.length = y.length := by
  simp only [reverb] at h
  split at h
  · exact (Option.some.inj h) ▸ rfl
  · split at h
    · exact (Option.some.inj h) ▸ rfl
    · split at h
      · exact Option.noConfusion h
      · rename_i m hm
        exact reverb_some_branch_length y _ out m _ hm h

lemma bass_boost_length (env : DSPEnv) (y : List ℚ) (sr : ℕ) (a : ℚ) (out : List ℚ)
    (h : bass_boost env y sr a = some out) : out.length = y.length := by
  simp only [bass_boost] at h
  split at h
  · exact (Option.some.inj h) ▸ rfl
  · rw [normalizeTo_length _ _ _ h, List.length_zipWith, lfilter_length,
      List.length_map, min_self]

lemma high_boost_length (env : DSPEnv) (y : List ℚ) (sr : ℕ) (a : ℚ) (out : List ℚ)
    (h : high_boost env y sr a = some out) : out.length = y.length := by
  simp only [high_boost] at h
  split at h
  · exact (Option.some.inj h) ▸ rfl
  · rw [normalizeTo_length _ _ _ h, List.length_zipWith, lfilter_length, min_self]

lemma lofi_filter_length (env : DSPEnv) (y : List ℚ) (sr : ℕ) (a : ℚ) (out : List ℚ)
    (h : lofi_filter env y sr a = some out) : out.length = y.length := by
  simp only [lofi_filter] at h
  split at h
  · exact (Option.some.inj h) ▸ rfl
  · rw [normalizeTo_length _ _ _ h, List.length_zipWith, lfilter_length, min_self]

lemma process_section_length (env : DSPEnv) (y : List ℚ) (sr : ℕ)
    (b hq r l : ℚ) (out : List ℚ)
    (h : process_section env y sr b hq r l = some out) : out.length = y.length := by
  unfold process_section at h
  split at h
  · exact Option.noConfusion h
  · rename_i y1 h1
    split at h
    · exact Option.noConfusion h
    · rename_i y2 h2
      split at h
      · exact Option.noConfusion h
      · rename_i y3 h3
        rw [lofi_filter_length _ _ _ _ _ h, high_boost_length _ _ _ _ _ h3,
          bass_boost_length _ _ _ _ _ h2, reverb_length _ _ _ _ _ h1]

lemma guardedProcess_length (env : DSPEnv) (y : List ℚ) (sr : ℕ)
    (b hq r l : ℚ) (out : List ℚ)
    (h : guardedProcess env y sr b hq r l = some out) : out.length = y.length := by
  unfold guardedProcess at h
  split at h
  · exact process_section_length _ _ _ _ _ _ _ _ h
  · exact (Option.some.inj h) ▸ rfl

lemma fade_in_out_length (y : List ℚ) (sr : ℕ) (fs : ℚ) :
    (fade_in_out y sr fs).length = y.length := by
  simp only [fade_in_out]
  split
  · rfl
  · rename_i hcond
    push_neg at hcond
    obtain ⟨hf0, hfn⟩ := hcond
    rw [List.length_zipWith, List.length_append, List.length_append,
      List.length_replicate, linspace_length, linspace_length]
    omega

lemma postSections_length (env : DSPEnv) (y : List ℚ) (sr : ℕ) (p : RemixParams)
    (out : List ℚ) (h : postSections env y sr p = some out) : out.length = y.length := by
  simp only [postSections] at h
  split at h
  · rename_i h0
    rw [← Option.some.inj h, h0]
  · split at h
    · exact Option.noConfusion h
    · rename_i z1 hz1
      split at h
      · exact Option.noConfusion h
      · rename_i z2 hz2
        split at h
        · exact Option.noConfusion h
        · rename_i z3 hz3
          have h1 := guardedProcess_length _ _ _ _ _ _ _ _ hz1
          have h2 := guardedProcess_length _ _ _ _ _ _ _ _ hz2
          have h3 := guardedProcess_length _ _ _ _ _ _ _ _ hz3
          have hsum := sectionSplit_lengths y sr p.t1 p.t2
          have hout : (if 0 < z2.length ∨ 0 < z3.length then z1 ++ z2 ++ z3 else z1).length
              = y.length := by
            split
            · rw [List.length_append, List.length_append]
              omega
            · rename_i hc
              push_neg at hc
              omega
          rw [normalizeTo_length _ _ _ h]
          split
          · rw [fade_in_out_length]
            exact hout
          · exact hout

lemma reverb_bound (env : DSPEnv) (y : List ℚ) (sr : ℕ) (a : ℚ) (out : List ℚ)
    (ha : 0 < a) (hsr : 1 ≤ sr) (h : reverb env y sr a = some out) :
    ∀ v ∈ out, |v| ≤ 0.98 := by
  simp only [reverb] at h
  split at h
  · rename_i hle
    exact absurd hle (not_le.2 ha)
  · split at h
    · rename_i htl0
      have := tailLen_pos hsr ha
      omega
    · split at h
      · exact Option.noConfusion h
      · exact normalizeTo_bound _ _ _ (by norm_num) h

lemma bass_boost_bound (env : DSPEnv) (y : List ℚ) (sr : ℕ) (a : ℚ) (out : List ℚ)
    (ha : 0 < a) (h : bass_boost env y sr a = some out) : ∀ v ∈ out, |v| ≤ 0.98 := by
  simp only [bass_boost] at h
  split at h
  · rename_i hle
    exact absurd hle (not_le.2 ha)
  · exact normalizeTo_bound _ _ _ (by norm_num) h

lemma high_boost_bound (env : DSPEnv) (y : List ℚ) (sr : ℕ) (a : ℚ) (out : List ℚ)
    (ha : 0 < a) (h : high_boost env y sr a = some out) : ∀ v ∈ out, |v| ≤ 0.95 := by
  simp only [high_boost] at h
  split at h
  · rename_i hle
    exact absurd hle (not_le.2 ha)
  · exact normalizeTo_bound _ _ _ (by norm_num) h

lemma lofi_filter_bound (env : DSPEnv) (y : List ℚ) (sr : ℕ) (a : ℚ) (out : List ℚ)
    (ha : 0 < a) (h : lofi_filter env y sr a = some out) : ∀ v ∈ out, |v| ≤ 0.95 := by
  simp only [lofi_filter] at h
  split at h
  · rename_i hle
    exact absurd hle (not_le.2 ha)
  · exact normalizeTo_bound _ _ _ (by norm_num) h

lemma remix_bound (env : DSPEnv) (y : List ℚ) (sr : ℕ) (p : RemixParams) (out : List ℚ)
    (h : remix_audio_core env y sr p = some out) : ∀ v ∈ out, |v| ≤ 0.98 := by
  unfold remix_audio_core at h
  simp only [postSections] at h
  split at h
  · rename_i h0
    rw [← Option.some.inj h]
    intro v hv
    rw [List.length_eq_zero.1 h0] at hv
    exact absurd hv (List.not_mem_nil v)
  · split at h
    · exact Option.noConfusion h
    · split at h
      · exact Option.noConfusion h
      · split at h
        · exact Option.noConfusion h
        · exact normalizeTo_bound _ _ _ (by norm_num) h

/-- Claim C1: for every per-effect transform (reverb, bass boost, high
boost, lo-fi blend), every waveform and every sample rate, an intensity
argument at most 0 makes the transform return the input waveform
bit-identical, with no filtering or renormalization applied. -/
theorem identity_short_circuit (env : DSPEnv) (y : List ℚ) (sr : ℕ) (a : ℚ)
    (ha : a ≤ 0) :
    reverb env y sr a = some y ∧ bass_boost env y sr a = some y ∧
    high_boost env y sr a = some y ∧ lofi_filter env y sr a = some y := by
  refine ⟨?_, ?_, ?_, ?_⟩ <;>
    simp [reverb, bass_boost, high_boost, lofi_filter, ha]

/-- Witness for C1 at a concrete input. -/
theorem identity_short_circuit_witness :
    reverb envC [(2:ℚ)] 1 0 = some [2] ∧ bass_boost envC [(2:ℚ)] 1 0 = some [2] ∧
    high_boost envC [(2:ℚ)] 1 0 = some [2] ∧ lofi_filter envC [(2:ℚ)] 1 0 = some [2] :=
  identity_short_circuit envC [2] 1 0 (le_refl 0)

/-- Claim C2: for every non-empty pre-processed waveform and every pair of
caller-supplied boundary times, after clamping `0 ≤ t1 ≤ t2 ≤ total_dur`
holds and the three sections sliced at `int(t1*sr)` and `int(t2*sr)`
partition the waveform exactly. -/
theorem section_boundary_invariant (y : List ℚ) (sr : ℕ) (t1 t2 : ℚ)
    (hsr : 1 ≤ sr) (hy : 0 < y.length) :
    0 ≤ (sectionSplit y sr t1 t2).1.1 ∧
    (sectionSplit y sr t1 t2).1.1 ≤ (sectionSplit y sr t1 t2).1.2 ∧
    (sectionSplit y sr t1 t2).1.2 ≤ (y.length : ℚ) / (sr : ℚ) ∧
    (sectionSplit y sr t1 t2).2.1.length + (sectionSplit y sr t1 t2).2.2.1.length +
      (sectionSplit y sr t1 t2).2.2.2.length = y.length := by
  refine ⟨?_, ?_, ?_, sectionSplit_lengths y sr t1 t2⟩ <;> simp only [sectionSplit]
  · exact le_max_left _ _
  · exact le_max_left _ _
  · exact max_le (max_le (by positivity) (min_le_right _ _)) (min_le_right _ _)

/-- Witness for C2 at a concrete input. -/
theorem section_boundary_invariant_witness :
    0 ≤ (sectionSplit [(0:ℚ)] 1 30 60).1.1 ∧
    (sectionSplit [(0:ℚ)] 1 30 60).1.1 ≤ (sectionSplit [(0:ℚ)] 1 30 60).1.2 ∧
    (sectionSplit [(0:ℚ)] 1 30 60).1.2 ≤ (([(0:ℚ)].length : ℚ) / ((1:ℕ) : ℚ)) ∧
    (sectionSplit [(0:ℚ)] 1 30 60).2.1.length + (sectionSplit [(0:ℚ)] 1 30 60).2.2.1.length +
      (sectionSplit [(0:ℚ)] 1 30 60).2.2.2.length = [(0:ℚ)].length :=
  section_boundary_invariant [(0:ℚ)] 1 30 60 (le_refl 1) (by decide)

/-- Counterexample for C3 as stated: the section processor applied to a
zero-length section with a strictly positive reverb intensity does not
produce a zero-length output; it errors (`none`, modelling the
`ValueError` that `np.max` raises on the empty wet array). -/
theorem empty_section_error_counterexample :
    process_section envC ([] : List ℚ) 1 0 0 (1/2) 0 = none := by
  norm_num [process_section, reverb, pyInt, fullConv, npAbsMax, smooth_tail, lfilter,
    lfilterGo, linspace, envC, dotQ]

/-- Claim C3 (amended): empty sections pass through the effect chain of
`remix_audio` untouched because the orchestrator only invokes the section
processor on non-empty sections; the section processor itself maps a
zero-length section to a zero-length output when all four intensities are
at most 0, while with a positive reverb intensity (and sample rate ≥ 1) it
errors on a zero-length section. -/
theorem empty_section_passthrough_amended :
    (∀ (env : DSPEnv) (sr : ℕ) (b h r l : ℚ),
      b ≤ 0 → h ≤ 0 → r ≤ 0 → l ≤ 0 → process_section env [] sr b h r l = some []) ∧
    (∀ (env : DSPEnv) (sr : ℕ) (b h r l : ℚ), guardedProcess env [] sr b h r l = some []) ∧
    (∀ (env : DSPEnv) (sr : ℕ) (b h r l : ℚ), 1 ≤ sr → 0 < r →
      process_section env [] sr b h r l = none) := by
  refine ⟨?_, ?_, ?_⟩
  · intro env sr b h r l hb hh hr hl
    simp [process_section, reverb, bass_boost, high_boost, lofi_filter, hb, hh, hr, hl]
  · intro env sr b h r l
    simp [guardedProcess]
  · intro env sr b h r l hsr hr
    have hrev : reverb env [] sr r = none := by
      simp only [reverb]
      rw [if_neg (not_le.2 hr)]
      have htl := tailLen_pos hsr hr
      rw [if_neg (by omega)]
      simp [fullConv, npAbsMax]
    simp [process_section, hrev]

/-- Witness for the amended C3 at concrete inputs. -/
theorem empty_section_amended_witness :
    process_section envC [] 1 0 0 0 0 = some [] ∧
    guardedProcess envC [] 1 1 1 1 1 = some [] ∧
    process_section envC [] 1 0 0 1 0 = none :=
  ⟨empty_section_passthrough_amended.1 envC 1 0 0 0 0
      (le_refl 0) (le_refl 0) (le_refl 0) (le_refl 0),
   empty_section_passthrough_amended.2.1 envC 1 1 1 1 1,
   empty_section_passthrough_amended.2.2 envC 1 0 0 1 0 (le_refl 1) one_pos⟩

/-- Claim C4: whenever a peak-normalizing stage actually runs (positive
intensity for the four transforms; the final stage of `remix_audio`), every
sample of its output has absolute value at most the stage's ceiling
(0.98 for reverb, bass boost and the final output, 0.95 for high boost and
the lo-fi blend) — in exact arithmetic the epsilon in the divisor makes the
bound hold outright, including on all-zero input. -/
theorem amplitude_bound :
    (∀ (env : DSPEnv) (y : List ℚ) (sr : ℕ) (a : ℚ) (out : List ℚ),
      0 < a → 1 ≤ sr → reverb env y sr a = some out → ∀ v ∈ out, |v| ≤ 0.98) ∧
    (∀ (env : DSPEnv) (y : List ℚ) (sr : ℕ) (a : ℚ) (out : List ℚ),
      0 < a → bass_boost env y sr a = some out → ∀ v ∈ out, |v| ≤ 0.98) ∧
    (∀ (env : DSPEnv) (y : List ℚ) (sr : ℕ) (a : ℚ) (out : List ℚ),
      0 < a → high_boost env y sr a = some out → ∀ v ∈ out, |v| ≤ 0.95) ∧
    (∀ (env : DSPEnv) (y : List ℚ) (sr : ℕ) (a : ℚ) (out : List ℚ),
      0 < a → lofi_filter env y sr a = some out → ∀ v ∈ out, |v| ≤ 0.95) ∧
    (∀ (env : DSPEnv) (y : List ℚ) (sr : ℕ) (p : RemixParams) (out : List ℚ),
      remix_audio_core env y sr p = some out → ∀ v ∈ out, |v| ≤ 0.98) :=
  ⟨fun env y sr a out ha hsr h => reverb_bound env y sr a out ha hsr h,
   fun env y sr a out ha h => bass_boost_bound env y sr a out ha h,
   fun env y sr a out ha h => high_boost_bound env y sr a out ha h,
   fun env y sr a out ha h => lofi_filter_bound env y sr a out ha h,
   fun env y sr p out h => remix_bound env y sr p out h⟩

/-- Witness for C4: all five normalizing stages applied at concrete
(silent) inputs. -/
theorem amplitude_bound_witness :
    (∀ v ∈ [(0:ℚ)], |v| ≤ 0.98) ∧ (∀ v ∈ [(0:ℚ)], |v| ≤ 0.98) ∧
    (∀ v ∈ [(0:ℚ)], |v| ≤ 0.95) ∧ (∀ v ∈ [(0:ℚ)], |v| ≤ 0.95) ∧
    (∀ v ∈ [(0:ℚ)], |v| ≤ 0.98) := by
  have hrev : reverb envC [(0:ℚ)] 1 1 = some [0] := by
    have hr : List.range 3 = [0, 1, 2] := by decide
    have hif : (if ([0, 0, 0] : List ℚ) = [] then ([] : List ℚ) else [0, 0, 0])
        = [0, 0, 0] := by simp
    norm_num [reverb, envC, smooth_tail, lfilter, lfilterGo, dotQ, fullConv, convEntry,
      npAbsMax, normalizeTo, linspace, pyInt, hr, hif]
  have hbass : bass_boost envC [(0:ℚ)] 1 1 = some [0] := by
    norm_num [bass_boost, envC, lfilter, lfilterGo, dotQ, npAbsMax, normalizeTo, pyInt]
  have hhigh : high_boost envC [(0:ℚ)] 1 1 = some [0] := by
    norm_num [high_boost, envC, lfilter, lfilterGo, dotQ, npAbsMax, normalizeTo, pyInt]
  have hlofi : lofi_filter envC [(0:ℚ)] 1 1 = some [0] := by
    norm_num [lofi_filter, envC, lfilter, lfilterGo, dotQ, npAbsMax, normalizeTo, pyInt]
  have hmix : remix_audio_core envC [(0:ℚ)] 1 p0 = some [0] := by
    norm_num [remix_audio_core, preprocess, postSections, applySpeedPitch, clampSpeed,
      clampPitch, sectionSplit, guardedProcess, process_section, reverb, bass_boost,
      high_boost, lofi_filter, fade_in_out, normalizeTo, npAbsMax, pyInt, p0, envC]
  exact ⟨amplitude_bound.1 envC [0] 1 1 [0] one_pos (le_refl 1) hrev,
    amplitude_bound.2.1 envC [0] 1 1 [0] one_pos hbass,
    amplitude_bound.2.2.1 envC [0] 1 1 [0] one_pos hhigh,
    amplitude_bound.2.2.2.1 envC [0] 1 1 [0] one_pos hlofi,
    amplitude_bound.2.2.2.2 envC [0] 1 p0 [0] hmix⟩

/-- Claim C5: the preview start time is clamped into
`[0, max(0, total_duration - duration)]`, and on a 60-second track a
preview request with start 5 and duration 15 crops exactly 15 seconds of
source audio before any other processing. -/
theorem preview_crop_correct :
    (∀ startTime d totalDur : ℚ,
      0 ≤ clampStart startTime d totalDur ∧
      clampStart startTime d totalDur ≤ max 0 (totalDur - d)) ∧
    (∀ (sr : ℕ) (y : List ℚ), 1 ≤ sr → y.length = 60 * sr →
      (previewCrop y sr 5 15).length = 15 * sr) := by
  constructor
  · intro s d td
    exact ⟨le_max_left _ _, max_le (le_max_left _ _) (min_le_right _ _)⟩
  · intro sr y hsr hy
    have h1 : (1:ℚ) ≤ (sr:ℚ) := by exact_mod_cast hsr
    have hsrne : (sr:ℚ) ≠ 0 := by linarith
    have htd : ((y.length : ℚ)) / (sr:ℚ) = 60 := by
      rw [hy]
      push_cast
      field_simp
    simp only [previewCrop]
    rw [htd]
    have hc : clampStart 5 15 60 = 5 := by
      unfold clampStart
      rw [max_eq_right (by norm_num : (0:ℚ) ≤ 60 - 15),
        min_eq_left (by norm_num : (5:ℚ) ≤ 60 - 15),
        max_eq_right (by norm_num : (0:ℚ) ≤ 5)]
    rw [hc]
    have hi1 : (pyInt ((5:ℚ) * (sr:ℚ))).toNat = 5 * sr := by
      have h5 : (5:ℚ) * (sr:ℚ) = ((5 * sr : ℕ) : ℚ) := by push_cast; ring
      rw [h5, pyInt_natCast]
      omega
    have hi2 : (pyInt (((5:ℚ) + 15) * (sr:ℚ))).toNat = 20 * sr := by
      have h20 : ((5:ℚ) + 15) * (sr:ℚ) = ((20 * sr : ℕ) : ℚ) := by push_cast; ring
      rw [h20, pyInt_natCast]
      omega
    rw [hi1, hi2, List.length_take, List.length_drop, hy]
    omega

/-- Witness for C5 at concrete inputs (one-sample-per-second track of 60
seconds). -/
theorem preview_crop_witness :
    (0 ≤ clampStart 5 15 60 ∧ clampStart 5 15 60 ≤ max 0 (60 - 15)) ∧
    (previewCrop (List.replicate 60 (0:ℚ)) 1 5 15).length = 15 * 1 :=
  ⟨preview_crop_correct.1 5 15 60,
   preview_crop_correct.2 1 (List.replicate 60 0) (le_refl 1) (by simp)⟩

lemma clampPitch_bounds (p : ℚ) : -7 ≤ clampPitch p ∧ clampPitch p ≤ 7 := by
  unfold clampPitch pyInt
  set q : ℚ := min 7 (max (-7) p) with hq
  have hq7 : q ≤ 7 := min_le_left _ _
  have hqm7 : (-7:ℚ) ≤ q := le_min (by norm_num) (le_max_left _ _)
  split
  · rename_i hlt
    constructor
    · have hf : ⌊-q⌋ ≤ 7 := by
        have hle : -q ≤ ((7:ℤ):ℚ) := by push_cast; linarith
        calc ⌊-q⌋ ≤ ⌊((7:ℤ):ℚ)⌋ := Int.floor_mono hle
          _ = 7 := Int.floor_intCast _
      omega
    · have hf : 0 ≤ ⌊-q⌋ := Int.floor_nonneg.2 (by linarith)
      omega
  · rename_i hge
    push_neg at hge
    constructor
    · have hf : 0 ≤ ⌊q⌋ := Int.floor_nonneg.2 hge
      omega
    · have hf : ⌊q⌋ ≤ 7 := by
        have hle : q ≤ ((7:ℤ):ℚ) := by push_cast; linarith
        calc ⌊q⌋ ≤ ⌊((7:ℤ):ℚ)⌋ := Int.floor_mono hle
          _ = 7 := Int.floor_intCast _
      omega

/-- Claim C6: every caller-supplied speed is silently clamped into
`[0.6, 1.3]` and every pitch value into the integer range `[-7, 7]` (total
functions, never an error), and when the clamped speed is 1 and the clamped
pitch step is 0 neither time-stretch nor pitch-shift is applied, leaving
the waveform unchanged. -/
theorem speed_pitch_clamp :
    (∀ s : ℚ, 0.6 ≤ clampSpeed s ∧ clampSpeed s ≤ 1.3) ∧
    (∀ p : ℚ, -7 ≤ clampPitch p ∧ clampPitch p ≤ 7) ∧
    (∀ (env : DSPEnv) (sr : ℕ) (s p : ℚ) (y : List ℚ),
      clampSpeed s = 1 → clampPitch p = 0 → applySpeedPitch env sr s p y = y) := by
  refine ⟨?_, clampPitch_bounds, ?_⟩
  · intro s
    exact ⟨le_min (by norm_num) (le_max_left _ _), min_le_left _ _⟩
  · intro env sr s p y h1 h2
    simp [applySpeedPitch, h1, h2]

/-- Witness for C6 at concrete inputs (out-of-range speed 5 and pitch 100,
neutral speed 1 / pitch 0 kept unchanged). -/
theorem speed_pitch_clamp_witness :
    (0.6 ≤ clampSpeed 5 ∧ clampSpeed 5 ≤ 1.3) ∧
    (-7 ≤ clampPitch 100 ∧ clampPitch 100 ≤ 7) ∧
    applySpeedPitch envC 44100 1 0 [(1:ℚ)] = [1] := by
  have hsp : clampSpeed 1 = 1 := by
    show min 1.3 (max 0.6 1) = 1
    rw [max_eq_right (by norm_num : (0.6:ℚ) ≤ 1), min_eq_right (by norm_num : (1:ℚ) ≤ 1.3)]
  have hpi : clampPitch 0 = 0 := by
    show pyInt (min 7 (max (-7) 0)) = 0
    rw [max_eq_right (by norm_num : (-7:ℚ) ≤ 0), min_eq_right (by norm_num : (0:ℚ) ≤ 7),
      pyInt_of_nonneg (le_refl 0)]
    simp
  exact ⟨speed_pitch_clamp.1 5, speed_pitch_clamp.2.1 100,
    speed_pitch_clamp.2.2 envC 44100 1 0 [1] hsp hpi⟩

/-- Claim C7: with the fade flag set, a track shorter than twice the fade
length (shorter than 2 seconds at one-second fades) is returned unchanged
with no envelope applied, and the fade stage never changes the waveform's
length (no shape mismatch). -/
theorem fade_skip :
    (∀ (y : List ℚ) (sr : ℕ), 1 ≤ sr → y.length < 2 * sr → fade_in_out y sr 1 = y) ∧
    (∀ (y : List ℚ) (sr : ℕ) (fs : ℚ), (fade_in_out y sr fs).length = y.length) := by
  constructor
  · intro y sr hsr hlen
    simp only [fade_in_out]
    have hfl : (pyInt ((1:ℚ) * (sr : ℚ))).toNat = sr := by
      rw [one_mul, pyInt_natCast]
      omega
    rw [hfl, if_pos (Or.inr (by omega))]
  · intro y sr fs
    exact fade_in_out_length y sr fs

/-- Witness for C7 at a concrete input (2 samples at 2 samples/second,
i.e., a 1-second track with 1-second fades). -/
theorem fade_skip_witness :
    fade_in_out [(1:ℚ), 1] 2 1 = [1, 1] ∧
    (fade_in_out [(1:ℚ), 1] 2 1).length = ([(1:ℚ), 1]).length :=
  ⟨fade_skip.1 [1, 1] 2 (by omega) (by decide), fade_skip.2 [1, 1] 2 1⟩

/-- Claim C8: the reverse operation is an involution — applying it twice
returns the original sample order. -/
theorem reverse_involution (y : List ℚ) : reverse_audio (reverse_audio y) = y := by
  simp [reverse_audio]

/-- Claim C9: each per-effect transform, and hence the section processor,
returns an output of exactly the input's length whenever it returns, and
the output of `remix_audio` after pre-processing has exactly the length of
the pre-processed waveform (so with speed 1 the output length equals the
pre-processed input length). -/
theorem length_preservation :
    (∀ (env : DSPEnv) (y : List ℚ) (sr : ℕ) (a : ℚ) (out : List ℚ),
      reverb env y sr a = some out → out.length = y.length) ∧
    (∀ (env : DSPEnv) (y : List ℚ) (sr : ℕ) (a : ℚ) (out : List ℚ),
      bass_boost env y sr a = some out → out.length = y.length) ∧
    (∀ (env : DSPEnv) (y : List ℚ) (sr : ℕ) (a : ℚ) (out : List ℚ),
      high_boost env y sr a = some out → out.length = y.length) ∧
    (∀ (env : DSPEnv) (y : List ℚ) (sr : ℕ) (a : ℚ) (out : List ℚ),
      lofi_filter env y sr a = some out → out.length = y.length) ∧
    (∀ (env : DSPEnv) (y : List ℚ) (sr : ℕ) (b h r l : ℚ) (out : List ℚ),
      process_section env y sr b h r l = some out → out.length = y.length) ∧
    (∀ (env : DSPEnv) (y : List ℚ) (sr : ℕ) (p : RemixParams) (out : List ℚ),
      remix_audio_core env y sr p = some out → out.length = (preprocess env y sr p).length) :=
  ⟨fun env y sr a out h => reverb_length env y sr a out h,
   fun env y sr a out h => bass_boost_length env y sr a out h,
   fun env y sr a out h => high_boost_length env y sr a out h,
   fun env y sr a out h => lofi_filter_length env y sr a out h,
   fun env y sr b hq r l out h => process_section_length env y sr b hq r l out h,
   fun env y sr p out h => postSections_length env (preprocess env y sr p) sr p out h⟩

/-- Witness for C9 at a concrete input. -/
theorem length_preservation_witness :
    remix_audio_core envC [(0:ℚ)] 1 p0 = some [0] ∧
    ([(0:ℚ)]).length = (preprocess envC [(0:ℚ)] 1 p0).length := by
  have h : remix_audio_core envC [(0:ℚ)] 1 p0 = some [0] := by
    norm_num [remix_audio_core, preprocess, postSections, applySpeedPitch, clampSpeed,
      clampPitch, sectionSplit, guardedProcess, process_section, reverb, bass_boost,
      high_boost, lofi_filter, fade_in_out, normalizeTo, npAbsMax, pyInt, p0, envC]
  exact ⟨h, length_preservation.2.2.2.2.2 envC [(0:ℚ)] 1 p0 [0] h⟩

/-- Claim C10: `get_preset_params` is a pure lookup: the Nightcore preset
is the default bundle with speed 1.3 and pitch 3, and every unrecognized
name returns the default bundle unchanged, never an error. -/
theorem preset_lookup :
    get_preset_params nightcoreName = { basePresetParams with speed := 1.3, pitch := 3 } ∧
    (∀ s : String, s ≠ slowedReverbName → s ≠ lofiSlowName → s ≠ nightcoreName →
      s ≠ podcastCleanName → get_preset_params s = basePresetParams) := by
  constructor
  · simp [get_preset_params, nightcoreName, slowedReverbName, lofiSlowName, podcastCleanName]
  · intro s h1 h2 h3 h4
    simp [get_preset_params, h1, h2, h3, h4]

/-- Witness for C10: the unrecognized name yields the default bundle. -/
theorem preset_lookup_witness :
    get_preset_params unknownName = basePresetParams :=
  preset_lookup.2 unknownName (by decide) (by decide) (by decide) (by decide)
